import Mathlib

/-!
Verification development for the nav2_map_server vector-object shape core
(header: src/nav2_map_server/include/nav2_map_server/vector_object_shapes.hpp).
The repository ships only the class declarations; every method body below is
therefore modelled from the specification text (sections 2, 4, 6, 7 of the
design document), keeping the declared names and signatures of the header.
Continuous coordinates are embedded as rationals, occupancy values as
integers, grids as a metadata record plus a flat row-major cell list.
-/

namespace Nav2VO

/-- The occupancy sentinel meaning an unknown cell (NO_INFORMATION). -/
def unknownValue : ℤ := -1

/-- Modelled from the spec: overlay policy enumeration (replace,
combine-max, combine-min) consumed by the cell-write policy. The C++
OverlayType enum lives in vector_object_utils.hpp, absent from src. -/
inductive OverlayType
  | replace
  | combineMax
  | combineMin
deriving DecidableEq

/-- Grid metadata: size, resolution and origin of the occupancy grid. -/
structure GridMeta where
  width : ℕ
  height : ℕ
  resolution : ℚ
  origin_x : ℚ
  origin_y : ℚ
deriving DecidableEq

/-- An occupancy grid: metadata plus row-major cell data. -/
structure Grid where
  meta : GridMeta
  data : List ℤ
deriving DecidableEq

/-- Modelled from the spec: the cell-write policy of section 4.2 (the C++
fillMap in vector_object_utils.hpp is absent from src). Replace stores the
candidate unconditionally; combine-max stores the larger of existing and
candidate treating the unknown sentinel as lower than any concrete value;
combine-min is the dual, treating unknown as higher than any concrete
value. -/
def combineValue (ot : OverlayType) (e v : ℤ) : ℤ :=
  match ot with
  | .replace => v
  | .combineMax => if e = unknownValue then v else if v = unknownValue then e else max e v
  | .combineMin => if e = unknownValue then v else if v = unknownValue then e else min e v

/-- Update the cell at a flat offset by a function of its current value;
offsets outside the data leave it untouched. -/
def applyAt (d : List ℤ) (o : ℕ) (f : ℤ → ℤ) : List ℤ :=
  match d[o]? with
  | some e => d.set o (f e)
  | none => d

/-- Apply a cell update at every offset of a list, in order. -/
def writeAll (d : List ℤ) (L : List ℕ) (f : ℤ → ℤ) : List ℤ :=
  L.foldl (fun acc o => applyAt acc o f) d

/-- Modelled from the spec: fillMap applies the overlay policy at one cell
offset of the grid. -/
def fillMap (m : Grid) (offset : ℕ) (v : ℤ) (ot : OverlayType) : Grid :=
  { m with data := applyAt m.data offset (fun e => combineValue ot e v) }

/-- A continuous 2-D point. -/
abbrev Pt := ℚ × ℚ

/-- The list of adjacent vertex pairs of a vertex sequence. -/
def consecPairs (l : List Pt) : List (Pt × Pt) := l.zip l.tail

/-- Modelled from the spec: polygon consistency check of section 4.3 — at
least three vertices and no two consecutive vertices coincide. -/
def polyConsistent (pts : List Pt) : Bool :=
  decide (3 ≤ pts.length) && (consecPairs pts).all (fun pr => decide (pr.1 ≠ pr.2))

/-- Modelled from the spec: circle consistency check of section 4.4 — the
radius must be positive. -/
def circleConsistent (r : ℚ) : Bool := decide (0 < r)

/-- The closed edge list of a polygon: consecutive vertex pairs, wrapping
last-to-first. -/
def closedEdges (pts : List Pt) : List (Pt × Pt) :=
  match pts with
  | [] => []
  | a :: _ => pts.zip (pts.tail ++ [a])

/-- One step of the ray-casting parity test: the horizontal ray from the
query point towards positive x crosses this edge. The edge counts only if
it strictly straddles the ray (one endpoint strictly above, the other not),
the standard half-open convention. -/
def edgeCrossesRay (p : Pt) (e : Pt × Pt) : Bool :=
  (decide (e.1.2 > p.2) != decide (e.2.2 > p.2)) &&
    decide (p.1 < (e.2.1 - e.1.1) * (p.2 - e.1.2) / (e.2.2 - e.1.2) + e.1.1)

/-- Modelled from the spec: ray-casting point-in-polygon test of section
4.1 — parity of the number of closed-polygon edges crossed by a horizontal
ray from the query point. -/
def pointInPolygon (pts : List Pt) (px py : ℚ) : Bool :=
  (closedEdges pts).foldl (fun acc e => xor acc (edgeCrossesRay (px, py) e)) false

/-- Modelled from the spec: point-in-circle test of section 4.1 — squared
distance compared against squared radius, boundary inclusive. -/
def pointInCircle (cx cy r px py : ℚ) : Bool :=
  decide ((px - cx) ^ 2 + (py - cy) ^ 2 ≤ r ^ 2)

/-- Round half away from zero: nonnegative inputs round half up, negative
inputs round half down. -/
def roundAway (q : ℚ) : ℤ := if 0 ≤ q then ⌊q + 1 / 2⌋ else ⌈q - 1 / 2⌉

/-- Modelled from the spec: the world-to-grid mapping of the grid contract
(section 6): truncating conversion of a world coordinate to a cell index,
failing when the index falls outside the grid. -/
def worldToMap (g : GridMeta) (wx wy : ℚ) : Option (ℕ × ℕ) :=
  if 0 ≤ ⌊(wx - g.origin_x) / g.resolution⌋ ∧
      ⌊(wx - g.origin_x) / g.resolution⌋ < (g.width : ℤ) ∧
      0 ≤ ⌊(wy - g.origin_y) / g.resolution⌋ ∧
      ⌊(wy - g.origin_y) / g.resolution⌋ < (g.height : ℤ) then
    some ((⌊(wx - g.origin_x) / g.resolution⌋).toNat,
          (⌊(wy - g.origin_y) / g.resolution⌋).toNat)
  else none

/-- Modelled from the spec: circle-center-to-grid conversion of section 4.1
(declared as Circle::centerToMap in the header) — round each axis
independently half away from zero, then bounds-check against the grid
extents; the conversion fails exactly when the rounded cell falls outside
the grid. -/
def centerToMap (g : GridMeta) (c : Pt) : Option (ℕ × ℕ) :=
  if 0 ≤ roundAway ((c.1 - g.origin_x) / g.resolution) ∧
      roundAway ((c.1 - g.origin_x) / g.resolution) < (g.width : ℤ) ∧
      0 ≤ roundAway ((c.2 - g.origin_y) / g.resolution) ∧
      roundAway ((c.2 - g.origin_y) / g.resolution) < (g.height : ℤ) then
    some ((roundAway ((c.1 - g.origin_x) / g.resolution)).toNat,
          (roundAway ((c.2 - g.origin_y) / g.resolution)).toNat)
  else none

/-- Fuel-bounded Bresenham stepping loop for grid-line rasterization. -/
def bresLoop (fuel : ℕ) (x y x1 y1 sx sy dx dy err : ℤ) : List (ℤ × ℤ) :=
  match fuel with
  | 0 => []
  | fuel + 1 =>
    (x, y) ::
      (if x = x1 ∧ y = y1 then []
       else
         let e2 := 2 * err
         let s1 : ℤ × ℤ := if dy ≤ e2 then (err + dy, x + sx) else (err, x)
         let s2 : ℤ × ℤ := if e2 ≤ dx then (s1.1 + dx, y + sy) else (s1.1, y)
         bresLoop fuel s1.2 s2.2 x1 y1 sx sy dx dy s2.1)

/-- Modelled from the spec: grid line rasterization of section 4.1 — the
connected discrete cell path between two grid cells, both endpoints
included (integer Bresenham stepping). -/
def lineCells (a b : ℕ × ℕ) : List (ℕ × ℕ) :=
  let x0 : ℤ := a.1
  let y0 : ℤ := a.2
  let x1 : ℤ := b.1
  let y1 : ℤ := b.2
  let dx : ℤ := |x1 - x0|
  let dy : ℤ := -|y1 - y0|
  let sx : ℤ := if x0 < x1 then 1 else -1
  let sy : ℤ := if y0 < y1 then 1 else -1
  (bresLoop (dx.toNat + (-dy).toNat + 1) x0 y0 x1 y1 sx sy dx dy (dx + dy)).map
    (fun p => (p.1.toNat, p.2.toNat))

/-- Keep only the in-grid points of a signed cell list and turn them into
row-major flat offsets. -/
def pointsToOffsets (g : GridMeta) (ps : List (ℤ × ℤ)) : List ℕ :=
  (ps.filter (fun p =>
      decide (0 ≤ p.1) && decide (p.1 < (g.width : ℤ)) &&
      decide (0 ≤ p.2) && decide (p.2 < (g.height : ℤ)))).map
    (fun p => p.2.toNat * g.width + p.1.toNat)

/-- Modelled from the spec: the 8-way symmetric midpoint circle stepping
loop of section 4.4, emitting boundary cells relative to the center cell. -/
def midpointLoop (fuel : ℕ) (mcx mcy x y f ddfx ddfy : ℤ) : List (ℤ × ℤ) :=
  match fuel with
  | 0 => []
  | fuel + 1 =>
    if x < y then
      let s1 : ℤ × ℤ × ℤ := if 0 ≤ f then (y - 1, f + ddfy + 2, ddfy + 2) else (y, f, ddfy)
      let y1 := s1.1
      let x1 := x + 1
      let ddfx1 := ddfx + 2
      let f1 := s1.2.1 + ddfx1 + 1
      [(mcx + x1, mcy + y1), (mcx - x1, mcy + y1), (mcx + x1, mcy - y1), (mcx - x1, mcy - y1),
       (mcx + y1, mcy + x1), (mcx - y1, mcy + x1), (mcx + y1, mcy - x1), (mcx - y1, mcy - x1)] ++
        midpointLoop fuel mcx mcy x1 y1 f1 ddfx1 s1.2.2
    else []

/-- The inclusive clamped cell-index range covered by a world interval on
one grid axis (empty when the interval misses the grid). -/
def clampedRange (o res : ℚ) (size : ℕ) (lo hi : ℚ) : List ℕ :=
  if ((⌊(lo - o) / res⌋.toNat : ℕ) : ℤ) ≤ min ((size : ℤ) - 1) ⌊(hi - o) / res⌋ then
    List.range' ⌊(lo - o) / res⌋.toNat
      (min ((size : ℤ) - 1) ⌊(hi - o) / res⌋ - (⌊(lo - o) / res⌋.toNat : ℕ) + 1).toNat
  else []

/-- The world coordinate of the center of cell index i on one grid axis. -/
def cellCenter (o res : ℚ) (i : ℕ) : ℚ := o + ((i : ℚ) + 1 / 2) * res

/-- A rigid 2-D transform: rotation coefficients (cosine, sine) plus a
translation. -/
structure Transform2D where
  rc : ℚ
  rs : ℚ
  tx : ℚ
  ty : ℚ
deriving DecidableEq

/-- Apply a rigid transform to a point. -/
def Transform2D.apply (t : Transform2D) (p : Pt) : Pt :=
  (t.rc * p.1 - t.rs * p.2 + t.tx, t.rs * p.1 + t.rc * p.2 + t.ty)

/-- The external transform provider contract of section 6: target frame,
source frame and tolerance to an optional rigid transform. -/
def TFProv := String → String → ℚ → Option Transform2D

/-- The error taxonomy of section 7 relevant to construction and update. -/
inductive ShapeError
  | inconsistentShape
deriving DecidableEq

/-- PolygonVO parameter message: vertices in the source frame, occupancy
value, fill flag, frame id and uuid (nav2_msgs message, absent from src). -/
structure PolygonVO where
  points : List Pt
  value : ℤ
  fill : Bool
  frame_id : String
  uuid : List ℕ
deriving DecidableEq

/-- CircleVO parameter message: center and radius in the source frame,
occupancy value, fill flag, frame id and uuid. -/
structure CircleVO where
  center : Pt
  radius : ℚ
  value : ℤ
  fill : Bool
  frame_id : String
  uuid : List ℕ
deriving DecidableEq

/-- Polygon shape state: the stored parameters plus the derived vertex
sequence expressed in the grid frame (fields params_ and polygon_ of the
header). -/
structure Polygon where
  params : PolygonVO
  poly : List Pt
deriving DecidableEq

/-- Circle shape state: the stored parameters plus the derived center
expressed in the grid frame (fields params_ and center_ of the header). -/
structure Circle where
  params : CircleVO
  center : Pt
deriving DecidableEq

/-- Modelled from the spec: Polygon construction (section 4.3) — store the
parameters, derive the grid-frame vertices by copying, then validate;
construction fails with InconsistentShape on an invalid vertex set, so no
polygon with such parameters ever exists. -/
def Polygon.make (p : PolygonVO) : Except ShapeError Polygon :=
  if polyConsistent p.points then .ok { params := p, poly := p.points }
  else .error .inconsistentShape

/-- Modelled from the spec: Polygon.setParams (section 4.3) — on validation
failure the previous state is kept and the error is reported; on success
the parameters and derived vertices are fully installed. -/
def Polygon.setParams (s : Polygon) (p : PolygonVO) : Option ShapeError × Polygon :=
  if polyConsistent p.points then (none, { params := p, poly := p.points })
  else (some .inconsistentShape, s)

/-- Modelled from the spec: Circle construction (section 4.4). -/
def Circle.make (p : CircleVO) : Except ShapeError Circle :=
  if circleConsistent p.radius then .ok { params := p, center := p.center }
  else .error .inconsistentShape

/-- Modelled from the spec: Circle.setParams (section 4.4), with the same
strong exception-safety contract as the polygon setter. -/
def Circle.setParams (s : Circle) (p : CircleVO) : Option ShapeError × Circle :=
  if circleConsistent p.radius then (none, { params := p, center := p.center })
  else (some .inconsistentShape, s)

/-- Modelled from the spec: Polygon query methods of the capability set
(section 4.5), each a pure function of the shape state. -/
def Polygon.isPointInside (s : Polygon) (px py : ℚ) : Bool := pointInPolygon s.poly px py

def Polygon.getParams (s : Polygon) : PolygonVO := s.params

def Polygon.getValue (s : Polygon) : ℤ := s.params.value

def Polygon.getFrameID (s : Polygon) : String := s.params.frame_id

def Polygon.getUUID (s : Polygon) : List ℕ := s.params.uuid

def Polygon.isUUID (s : Polygon) (u : List ℕ) : Bool := decide (s.params.uuid = u)

def Polygon.isFill (s : Polygon) : Bool := s.params.fill

/-- Minimum of a rational list (0 on the empty list). -/
def listMinQ (l : List ℚ) : ℚ :=
  match l with
  | [] => 0
  | a :: t => t.foldl min a

/-- Maximum of a rational list (0 on the empty list). -/
def listMaxQ (l : List ℚ) : ℚ :=
  match l with
  | [] => 0
  | a :: t => t.foldl max a

/-- Modelled from the spec: Polygon.getBoundaries (section 4.1) — min and
max over all grid-frame vertex coordinates, as (min x, min y, max x,
max y). -/
def Polygon.getBoundaries (s : Polygon) : ℚ × ℚ × ℚ × ℚ :=
  (listMinQ (s.poly.map Prod.fst), listMinQ (s.poly.map Prod.snd),
   listMaxQ (s.poly.map Prod.fst), listMaxQ (s.poly.map Prod.snd))

/-- Modelled from the spec: Circle query methods of the capability set. -/
def Circle.isPointInside (s : Circle) (px py : ℚ) : Bool :=
  pointInCircle s.center.1 s.center.2 s.params.radius px py

def Circle.getParams (s : Circle) : CircleVO := s.params

def Circle.getValue (s : Circle) : ℤ := s.params.value

def Circle.getFrameID (s : Circle) : String := s.params.frame_id

def Circle.getUUID (s : Circle) : List ℕ := s.params.uuid

def Circle.isUUID (s : Circle) (u : List ℕ) : Bool := decide (s.params.uuid = u)

def Circle.isFill (s : Circle) : Bool := s.params.fill

/-- Modelled from the spec: Circle.getBoundaries (section 4.1) — center
plus and minus radius on both axes. -/
def Circle.getBoundaries (s : Circle) : ℚ × ℚ × ℚ × ℚ :=
  (s.center.1 - s.params.radius, s.center.2 - s.params.radius,
   s.center.1 + s.params.radius, s.center.2 + s.params.radius)

/-- Modelled from the spec: Polygon.toFrame (section 4.3) — when the target
frame equals the current frame the call succeeds trivially without the
provider; otherwise it asks the provider for a rigid transform within
tolerance, failing with the state unchanged when none is available, and on
success applies the transform to every source vertex and installs the new
frame id. -/
def Polygon.toFrame (s : Polygon) (to_frame : String) (prov : TFProv) (tol : ℚ) :
    Bool × Polygon :=
  if to_frame = s.params.frame_id then (true, s)
  else
    match prov to_frame s.params.frame_id tol with
    | none => (false, s)
    | some t =>
      (true, { params := { s.params with frame_id := to_frame },
               poly := s.params.points.map t.apply })

/-- Modelled from the spec: Circle.toFrame (section 4.4) — same contract as
the polygon version, applied to the single center point; the radius is
never rescaled. -/
def Circle.toFrame (s : Circle) (to_frame : String) (prov : TFProv) (tol : ℚ) :
    Bool × Circle :=
  if to_frame = s.params.frame_id then (true, s)
  else
    match prov to_frame s.params.frame_id tol with
    | none => (false, s)
    | some t =>
      (true, { params := { s.params with frame_id := to_frame },
               center := t.apply s.params.center })

/-- Modelled from the spec: the filled-mode cell enumeration of the
rasterization driver (section 2 and 4.3) for a polygon — bounding box
clipped to the grid, keeping every cell whose center point tests inside. -/
def Polygon.fillCells (s : Polygon) (g : GridMeta) : List ℕ :=
  (clampedRange g.origin_y g.resolution g.height s.getBoundaries.2.1
      s.getBoundaries.2.2.2).foldl
    (fun acc j =>
      acc ++ ((clampedRange g.origin_x g.resolution g.width s.getBoundaries.1
          s.getBoundaries.2.2.1).filter (fun i =>
        pointInPolygon s.poly (cellCenter g.origin_x g.resolution i)
          (cellCenter g.origin_y g.resolution j))).map (fun i => j * g.width + i))
    []

/-- Modelled from the spec: the border-mode cell enumeration for a polygon
(section 4.3, declared as Polygon::putBorders) — each closed edge is
rasterized as a grid line between the cells of its endpoints; an edge with
an endpoint outside the grid is skipped (section 7, OutOfGridBounds is a
silent no-op). -/
def Polygon.borderCells (s : Polygon) (g : GridMeta) : List ℕ :=
  (closedEdges s.poly).foldl
    (fun acc e =>
      match worldToMap g e.1.1 e.1.2, worldToMap g e.2.1 e.2.2 with
      | some a, some b => acc ++ (lineCells a b).map (fun p => p.2 * g.width + p.1)
      | _, _ => acc)
    []

/-- Modelled from the spec: the filled-mode cell enumeration for a circle
(section 4.4) — gated on the round-based center conversion; when it fails
the whole operation is a no-op, otherwise the clipped bounding box is
scanned keeping cells whose center tests inside the circle. -/
def Circle.fillCells (s : Circle) (g : GridMeta) : List ℕ :=
  match centerToMap g s.center with
  | none => []
  | some _ =>
    (clampedRange g.origin_y g.resolution g.height s.getBoundaries.2.1
        s.getBoundaries.2.2.2).foldl
      (fun acc j =>
        acc ++ ((clampedRange g.origin_x g.resolution g.width s.getBoundaries.1
            s.getBoundaries.2.2.1).filter (fun i =>
          pointInCircle s.center.1 s.center.2 s.params.radius
            (cellCenter g.origin_x g.resolution i)
            (cellCenter g.origin_y g.resolution j))).map (fun i => j * g.width + i))
      []

/-- Modelled from the spec: the border-mode cell enumeration for a circle
(section 4.4, declared as Circle::putBorders) — gated on the round-based
center conversion, then the 8-way symmetric midpoint method emits the
boundary cells, each bounds-checked before painting. -/
def Circle.borderCells (s : Circle) (g : GridMeta) : List ℕ :=
  match centerToMap g s.center with
  | none => []
  | some c =>
    let mcx : ℤ := c.1
    let mcy : ℤ := c.2
    let mr : ℤ := ⌊s.params.radius / g.resolution⌋
    let start : List (ℤ × ℤ) :=
      [(mcx, mcy + mr), (mcx, mcy - mr), (mcx + mr, mcy), (mcx - mr, mcy)]
    pointsToOffsets g (start ++ midpointLoop mr.toNat mcx mcy 0 mr (1 - mr) 0 (-2 * mr))

/-- Modelled from the spec: full polygon rasterization — filled mode paints
the interior cells, border mode the edge cells, both through the uniform
cell-write policy. -/
def Polygon.rasterize (s : Polygon) (m : Grid) (ot : OverlayType) : Grid :=
  Grid.mk m.meta
    (writeAll m.data
      (if s.params.fill then s.fillCells m.meta else s.borderCells m.meta)
      (fun e => combineValue ot e s.params.value))

/-- Modelled from the spec: full circle rasterization. -/
def Circle.rasterize (s : Circle) (m : Grid) (ot : OverlayType) : Grid :=
  Grid.mk m.meta
    (writeAll m.data
      (if s.params.fill then s.fillCells m.meta else s.borderCells m.meta)
      (fun e => combineValue ot e s.params.value))

/-- A vector-object shape: the closed Polygon-or-Circle variant of the
Shape hierarchy. -/
inductive VShape
  | pol (s : Polygon)
  | cir (s : Circle)
deriving DecidableEq

/-- Frame id of a shape. -/
def VShape.frameId : VShape → String
  | .pol s => s.getFrameID
  | .cir s => s.getFrameID

/-- Rasterize a shape onto a grid. -/
def VShape.rasterize : VShape → Grid → OverlayType → Grid
  | .pol s, m, ot => s.rasterize m ot
  | .cir s, m, ot => s.rasterize m ot

/-- Transform a shape to a target frame through the provider. -/
def VShape.toFrame : VShape → String → TFProv → ℚ → Bool × VShape
  | .pol s, f, prov, tol =>
    let r := s.toFrame f prov tol
    (r.1, .pol r.2)
  | .cir s, f, prov, tol =>
    let r := s.toFrame f prov tol
    (r.1, .cir r.2)

/-- Whether an Except-valued construction succeeded. -/
def exceptOk {α : Type} : Except ShapeError α → Bool
  | .ok _ => true
  | .error _ => false

/-- One read-only query of the Shape capability set (section 4.5). -/
inductive QueryOp
  | qInside (px py : ℚ)
  | qParams
  | qValue
  | qFrame
  | qUUID
  | qIsUUID (u : List ℕ)
  | qFill
deriving DecidableEq

/-- The result of a read-only query. -/
inductive Answer
  | ab (b : Bool)
  | ai (z : ℤ)
  | astr (t : String)
  | aid (u : List ℕ)
  | apoly (p : PolygonVO)
  | acirc (c : CircleVO)
deriving DecidableEq

/-- The pure value returned by one read-only query on a shape. -/
def VShape.query : VShape → QueryOp → Answer
  | .pol s, .qInside px py => .ab (s.isPointInside px py)
  | .pol s, .qParams => .apoly s.getParams
  | .pol s, .qValue => .ai s.getValue
  | .pol s, .qFrame => .astr s.getFrameID
  | .pol s, .qUUID => .aid s.getUUID
  | .pol s, .qIsUUID u => .ab (s.isUUID u)
  | .pol s, .qFill => .ab s.isFill
  | .cir s, .qInside px py => .ab (s.isPointInside px py)
  | .cir s, .qParams => .acirc s.getParams
  | .cir s, .qValue => .ai s.getValue
  | .cir s, .qFrame => .astr s.getFrameID
  | .cir s, .qUUID => .aid s.getUUID
  | .cir s, .qIsUUID u => .ab (s.isUUID u)
  | .cir s, .qFill => .ab s.isFill

/-- Modelled from the spec: a read-only query call in state-passing style —
the const query methods of the capability set compute their answer from the
shape state and hand the state back (sections 4.5 and 5; the method bodies
are absent from src, only their const declarations are in the header). -/
def VShape.queryCall (s : VShape) (q : QueryOp) : Answer × VShape := (s.query q, s)

/-- Run a sequence of read-only query calls, threading the shape state. -/
def runQueries : VShape → List QueryOp → List Answer × VShape
  | s, [] => ([], s)
  | s, q :: qs =>
    let r := s.queryCall q
    let rest := runQueries r.2 qs
    (r.1 :: rest.1, rest.2)

/-- The specification-level polygon validity condition: at least three
vertices and no two consecutive vertices coincide. -/
def PolyValid (pts : List Pt) : Prop :=
  3 ≤ pts.length ∧ pts.Chain' (fun a b => a ≠ b)

/-! ## Concrete instances used by witnesses -/

def triPts : List Pt := [(0, 0), (1, 0), (0, 1)]

def triParams : PolygonVO := ⟨triPts, 100, true, "map", []⟩

def triShape : Polygon := ⟨triParams, triPts⟩

def circParams : CircleVO := ⟨(0, 0), 1, 50, true, "map", []⟩

def circShape : Circle := ⟨circParams, (0, 0)⟩

def badPolyParams : PolygonVO := ⟨[(0, 0), (1, 0)], 100, true, "map", []⟩

def badCircleParams : CircleVO := ⟨(0, 0), -1, 50, true, "map", []⟩

def provNone : TFProv := fun _ _ _ => none

/-- The concrete square polygon of scenario 1: vertices (1,1), (1,3),
(3,3), (3,1), value 100, filled. -/
def sqParams : PolygonVO := ⟨[(1, 1), (1, 3), (3, 3), (3, 1)], 100, true, "map", []⟩

def sqFill : Polygon := ⟨sqParams, sqParams.points⟩

def sqBorder : Polygon := ⟨⟨sqParams.points, 100, false, "map", []⟩, sqParams.points⟩

/-- A 5 by 5 grid with resolution 1 and origin (0,0), all cells zero. -/
def gridC8 : Grid := ⟨⟨5, 5, 1, 0, 0⟩, List.replicate 25 0⟩

/-- The bounding box (min x, min y, max x, max y) lies wholly outside the
closed world rectangle covered by the grid. -/
def outsideGrid (g : GridMeta) (b : ℚ × ℚ × ℚ × ℚ) : Prop :=
  b.2.2.1 < g.origin_x ∨ g.origin_x + g.width * g.resolution < b.1 ∨
    b.2.2.2 < g.origin_y ∨ g.origin_y + g.height * g.resolution < b.2.1

/-- A circle lying far outside the witness grid. -/
def farCircle : Circle := ⟨⟨(10, 10), 1, 50, true, "map", []⟩, (10, 10)⟩

/-- A square polygon lying far outside the witness grid. -/
def farPoly : Polygon :=
  ⟨⟨[(10, 10), (10, 12), (12, 12), (12, 10)], 100, true, "map", []⟩,
   [(10, 10), (10, 12), (12, 12), (12, 10)]⟩

/-! ## Supporting lemmas for the cell-write policy -/

theorem applyAt_getElem? (d : List ℤ) (a : ℕ) (f : ℤ → ℤ) (o : ℕ) :
    (applyAt d a f)[o]? = if o = a then (d[o]?).map f else d[o]? := by
  unfold applyAt
  cases h : d[a]? with
  | none =>
    by_cases ho : o = a
    · subst ho; simp [h]
    · simp [ho]
  | some e =>
    have hlt : a < d.length := by
      by_contra hge
      rw [List.getElem?_eq_none (by omega)] at h
      exact Option.noConfusion h
    by_cases ho : o = a
    · subst ho; simp [List.getElem?_set, hlt, h]
    · rw [List.getElem?_set, if_neg (fun hh : a = o => ho hh.symm), if_neg ho]

theorem writeAll_cons (d : List ℤ) (a : ℕ) (L : List ℕ) (f : ℤ → ℤ) :
    writeAll d (a :: L) f = writeAll (applyAt d a f) L f := rfl

theorem optionMap_idem (f : ℤ → ℤ) (hf : ∀ x, f (f x) = f x) (x : Option ℤ) :
    (x.map f).map f = x.map f := by
  cases x <;> simp [hf]

theorem writeAll_getElem? (f : ℤ → ℤ) (hf : ∀ x, f (f x) = f x) :
    ∀ (L : List ℕ) (d : List ℤ) (o : ℕ),
      (writeAll d L f)[o]? = if o ∈ L then (d[o]?).map f else d[o]?
  | [], d, o => by simp [writeAll]
  | a :: L, d, o => by
    rw [writeAll_cons, writeAll_getElem? f hf L (applyAt d a f) o, applyAt_getElem?]
    by_cases h1 : o ∈ L <;> by_cases h2 : o = a <;>
      simp [h1, h2, optionMap_idem f hf]

theorem writeAll_twice (f : ℤ → ℤ) (hf : ∀ x, f (f x) = f x) (L : List ℕ) (d : List ℤ) :
    writeAll (writeAll d L f) L f = writeAll d L f := by
  apply List.ext_getElem?
  intro n
  rw [writeAll_getElem? f hf, writeAll_getElem? f hf]
  by_cases h : n ∈ L <;> simp [h, optionMap_idem f hf]

theorem combineValue_idem (ot : OverlayType) (v e : ℤ) :
    combineValue ot (combineValue ot e v) v = combineValue ot e v := by
  cases ot <;> simp only [combineValue]
  · by_cases he : e = unknownValue <;> by_cases hv : v = unknownValue <;>
      simp [he, hv, unknownValue, max_def] <;> split_ifs <;> omega
  · by_cases he : e = unknownValue <;> by_cases hv : v = unknownValue <;>
      simp [he, hv, unknownValue, min_def] <;> split_ifs <;> omega

theorem polygon_rasterize_twice (s : Polygon) (m : Grid) (ot : OverlayType) :
    s.rasterize (s.rasterize m ot) ot = s.rasterize m ot := by
  unfold Polygon.rasterize
  congr 1
  exact writeAll_twice _ (fun x => combineValue_idem ot s.params.value x) _ _

theorem circle_rasterize_twice (s : Circle) (m : Grid) (ot : OverlayType) :
    s.rasterize (s.rasterize m ot) ot = s.rasterize m ot := by
  unfold Circle.rasterize
  congr 1
  exact writeAll_twice _ (fun x => combineValue_idem ot s.params.value x) _ _

/-! ## Supporting lemmas for validation -/

theorem zipTail_all_iff :
    ∀ l : List Pt,
      (((l.zip l.tail).all fun pr => decide (pr.1 ≠ pr.2)) = true) ↔
        l.Chain' (fun a b => a ≠ b)
  | [] => by simp
  | [a] => by simp
  | a :: b :: t => by
    have ih := zipTail_all_iff (b :: t)
    simp only [List.tail_cons] at ih ⊢
    simp only [List.zip_cons_cons, List.all_cons, Bool.and_eq_true, decide_eq_true_eq,
      List.chain'_cons]
    exact and_congr_right fun _ => ih

theorem polyConsistent_iff (pts : List Pt) : polyConsistent pts = true ↔ PolyValid pts := by
  unfold polyConsistent consecPairs PolyValid
  rw [Bool.and_eq_true, decide_eq_true_eq]
  exact and_congr_right fun _ => zipTail_all_iff pts

/-! ## Supporting lemmas for round-half-away-from-zero -/

theorem roundAway_half (q : ℚ) : |(roundAway q : ℚ) - q| ≤ 1 / 2 := by
  unfold roundAway
  by_cases h : 0 ≤ q
  · rw [if_pos h]
    have h1 : ((⌊q + 1 / 2⌋ : ℤ) : ℚ) ≤ q + 1 / 2 := Int.floor_le _
    have h2 : q + 1 / 2 - 1 < ((⌊q + 1 / 2⌋ : ℤ) : ℚ) := Int.sub_one_lt_floor _
    rw [abs_le]
    constructor <;> linarith
  · rw [if_neg h]
    have h1 : q - 1 / 2 ≤ ((⌈q - 1 / 2⌉ : ℤ) : ℚ) := Int.le_ceil _
    have h2 : ((⌈q - 1 / 2⌉ : ℤ) : ℚ) < q - 1 / 2 + 1 := Int.ceil_lt_add_one _
    rw [abs_le]
    constructor <;> linarith

theorem roundAway_nearest (q : ℚ) (z : ℤ) :
    |(roundAway q : ℚ) - q| ≤ |(z : ℚ) - q| := by
  rcases eq_or_ne z (roundAway q) with rfl | hne
  · exact le_refl _
  · have hz : (1 : ℤ) ≤ |z - roundAway q| := Int.one_le_abs (sub_ne_zero.mpr hne)
    have h1 : (1 : ℚ) ≤ |(z : ℚ) - (roundAway q : ℚ)| := by
      have : ((1 : ℤ) : ℚ) ≤ ((|z - roundAway q| : ℤ) : ℚ) := by exact_mod_cast hz
      rw [Int.cast_abs] at this
      push_cast at this ⊢
      linarith
    have h2 := roundAway_half q
    have h3 : |(z : ℚ) - (roundAway q : ℚ)| ≤ |(z : ℚ) - q| + |q - (roundAway q : ℚ)| :=
      abs_sub_le _ _ _
    rw [abs_sub_comm q _] at h3
    linarith

theorem roundAway_tie_away (q : ℚ) (h : |(roundAway q : ℚ) - q| = 1 / 2) :
    |q| ≤ |(roundAway q : ℚ)| := by
  unfold roundAway at h ⊢
  by_cases hq : 0 ≤ q
  · rw [if_pos hq] at h ⊢
    have h1 : ((⌊q + 1 / 2⌋ : ℤ) : ℚ) ≤ q + 1 / 2 := Int.floor_le _
    have h2 : q + 1 / 2 - 1 < ((⌊q + 1 / 2⌋ : ℤ) : ℚ) := Int.sub_one_lt_floor _
    rcases (abs_eq (by norm_num : (0 : ℚ) ≤ 1 / 2)).mp h with h3 | h3
    · rw [abs_of_nonneg hq, abs_of_nonneg (by linarith : (0 : ℚ) ≤ ((⌊q + 1 / 2⌋ : ℤ) : ℚ))]
      linarith
    · exfalso
      linarith
  · rw [if_neg hq] at h ⊢
    push_neg at hq
    have h1 : q - 1 / 2 ≤ ((⌈q - 1 / 2⌉ : ℤ) : ℚ) := Int.le_ceil _
    have h2 : ((⌈q - 1 / 2⌉ : ℤ) : ℚ) < q - 1 / 2 + 1 := Int.ceil_lt_add_one _
    rcases (abs_eq (by norm_num : (0 : ℚ) ≤ 1 / 2)).mp h with h3 | h3
    · exfalso
      linarith
    · rw [abs_of_neg hq, abs_of_neg (by linarith : ((⌈q - 1 / 2⌉ : ℤ) : ℚ) < 0)]
      linarith

/-! ## Supporting lemmas for out-of-grid rasterization -/

theorem foldl_const {α β : Type} (g : α → β → α) (l : List β)
    (hg : ∀ a b, b ∈ l → g a b = a) : ∀ a, l.foldl g a = a := by
  induction l with
  | nil => intro a; rfl
  | cons x t ih =>
    intro a
    rw [List.foldl_cons, hg a x (List.mem_cons_self x t)]
    exact ih (fun a b hb => hg a b (List.mem_cons_of_mem x hb)) a

theorem clampedRange_empty_low (o res : ℚ) (size : ℕ) (lo hi : ℚ)
    (hres : 0 < res) (h : hi < o) : clampedRange o res size lo hi = [] := by
  unfold clampedRange
  split_ifs with hc
  · exfalso
    have h1 : (hi - o) / res < 0 := div_neg_of_neg_of_pos (by linarith) hres
    have h2 : ⌊(hi - o) / res⌋ < 0 := by
      rw [Int.floor_lt]
      push_cast
      linarith
    have h3 : min ((size : ℤ) - 1) ⌊(hi - o) / res⌋ < 0 :=
      lt_of_le_of_lt (min_le_right _ _) h2
    have h4 : (0 : ℤ) ≤ ((⌊(lo - o) / res⌋.toNat : ℕ) : ℤ) := Int.natCast_nonneg _
    linarith
  · rfl

theorem clampedRange_empty_right (o res : ℚ) (size : ℕ) (lo hi : ℚ)
    (hres : 0 < res) (h : o + size * res < lo) : clampedRange o res size lo hi = [] := by
  unfold clampedRange
  split_ifs with hc
  · exfalso
    have h1 : (size : ℚ) ≤ (lo - o) / res := by
      rw [le_div_iff hres]
      linarith
    have h2 : (size : ℤ) ≤ ⌊(lo - o) / res⌋ := by
      rw [Int.le_floor]
      push_cast
      linarith
    have h3 : (0 : ℤ) ≤ ⌊(lo - o) / res⌋ := le_trans (Int.natCast_nonneg size) h2
    rw [Int.toNat_of_nonneg h3] at hc
    have h5 : min ((size : ℤ) - 1) ⌊(hi - o) / res⌋ ≤ (size : ℤ) - 1 := min_le_left _ _
    linarith
  · rfl

theorem foldl_min_le (t : List ℚ) (a : ℚ) :
    t.foldl min a ≤ a ∧ ∀ x ∈ t, t.foldl min a ≤ x := by
  induction t generalizing a with
  | nil => exact ⟨le_refl a, fun x hx => absurd hx (List.not_mem_nil x)⟩
  | cons c t ih =>
    rw [List.foldl_cons]
    refine ⟨le_trans (ih (min a c)).1 (min_le_left a c), ?_⟩
    intro x hx
    rcases List.mem_cons.mp hx with rfl | hx2
    · exact le_trans (ih (min a x)).1 (min_le_right a x)
    · exact (ih (min a c)).2 x hx2

theorem foldl_le_max (t : List ℚ) (a : ℚ) :
    a ≤ t.foldl max a ∧ ∀ x ∈ t, x ≤ t.foldl max a := by
  induction t generalizing a with
  | nil => exact ⟨le_refl a, fun x hx => absurd hx (List.not_mem_nil x)⟩
  | cons c t ih =>
    rw [List.foldl_cons]
    refine ⟨le_trans (le_max_left a c) (ih (max a c)).1, ?_⟩
    intro x hx
    rcases List.mem_cons.mp hx with rfl | hx2
    · exact le_trans (le_max_right a x) (ih (max a x)).1
    · exact (ih (max a c)).2 x hx2

theorem listMinQ_le (l : List ℚ) (x : ℚ) (hx : x ∈ l) : listMinQ l ≤ x := by
  cases l with
  | nil => exact absurd hx (List.not_mem_nil x)
  | cons a t =>
    unfold listMinQ
    rcases List.mem_cons.mp hx with rfl | hx2
    · exact (foldl_min_le t x).1
    · exact (foldl_min_le t a).2 x hx2

theorem le_listMaxQ (l : List ℚ) (x : ℚ) (hx : x ∈ l) : x ≤ listMaxQ l := by
  cases l with
  | nil => exact absurd hx (List.not_mem_nil x)
  | cons a t =>
    unfold listMaxQ
    rcases List.mem_cons.mp hx with rfl | hx2
    · exact (foldl_le_max t x).1
    · exact (foldl_le_max t a).2 x hx2

theorem vertexBounds (s : Polygon) (v : Pt) (hv : v ∈ s.poly) :
    s.getBoundaries.1 ≤ v.1 ∧ s.getBoundaries.2.1 ≤ v.2 ∧
      v.1 ≤ s.getBoundaries.2.2.1 ∧ v.2 ≤ s.getBoundaries.2.2.2 := by
  have hx : v.1 ∈ s.poly.map Prod.fst := List.mem_map_of_mem Prod.fst hv
  have hy : v.2 ∈ s.poly.map Prod.snd := List.mem_map_of_mem Prod.snd hv
  unfold Polygon.getBoundaries
  exact ⟨listMinQ_le _ _ hx, listMinQ_le _ _ hy, le_listMaxQ _ _ hx, le_listMaxQ _ _ hy⟩

theorem worldToMap_none_xlow (g : GridMeta) (wx wy : ℚ) (hres : 0 < g.resolution)
    (h : wx < g.origin_x) : worldToMap g wx wy = none := by
  unfold worldToMap
  split_ifs with hc
  · exfalso
    have h1 : (wx - g.origin_x) / g.resolution < 0 :=
      div_neg_of_neg_of_pos (by linarith) hres
    have h2 : ⌊(wx - g.origin_x) / g.resolution⌋ < 0 := by
      rw [Int.floor_lt]
      push_cast
      linarith
    exact absurd hc.1 (not_le.mpr h2)
  · rfl

theorem worldToMap_none_xhigh (g : GridMeta) (wx wy : ℚ) (hres : 0 < g.resolution)
    (h : g.origin_x + g.width * g.resolution < wx) : worldToMap g wx wy = none := by
  unfold worldToMap
  split_ifs with hc
  · exfalso
    have h1 : (g.width : ℚ) ≤ (wx - g.origin_x) / g.resolution := by
      rw [le_div_iff hres]
      linarith
    have h2 : (g.width : ℤ) ≤ ⌊(wx - g.origin_x) / g.resolution⌋ := by
      rw [Int.le_floor]
      push_cast
      linarith
    exact absurd hc.2.1 (not_lt.mpr h2)
  · rfl

theorem worldToMap_none_ylow (g : GridMeta) (wx wy : ℚ) (hres : 0 < g.resolution)
    (h : wy < g.origin_y) : worldToMap g wx wy = none := by
  unfold worldToMap
  split_ifs with hc
  · exfalso
    have h1 : (wy - g.origin_y) / g.resolution < 0 :=
      div_neg_of_neg_of_pos (by linarith) hres
    have h2 : ⌊(wy - g.origin_y) / g.resolution⌋ < 0 := by
      rw [Int.floor_lt]
      push_cast
      linarith
    exact absurd hc.2.2.1 (not_le.mpr h2)
  · rfl

theorem worldToMap_none_yhigh (g : GridMeta) (wx wy : ℚ) (hres : 0 < g.resolution)
    (h : g.origin_y + g.height * g.resolution < wy) : worldToMap g wx wy = none := by
  unfold worldToMap
  split_ifs with hc
  · exfalso
    have h1 : (g.height : ℚ) ≤ (wy - g.origin_y) / g.resolution := by
      rw [le_div_iff hres]
      linarith
    have h2 : (g.height : ℤ) ≤ ⌊(wy - g.origin_y) / g.resolution⌋ := by
      rw [Int.le_floor]
      push_cast
      linarith
    exact absurd hc.2.2.2 (not_lt.mpr h2)
  · rfl

theorem closedEdges_fst_mem (pts : List Pt) (e : Pt × Pt) (he : e ∈ closedEdges pts) :
    e.1 ∈ pts := by
  unfold closedEdges at he
  cases pts with
  | nil => exact absurd he (List.not_mem_nil e)
  | cons a t =>
    obtain ⟨p, q⟩ := e
    exact (List.of_mem_zip he).1

theorem closedEdges_snd_mem (pts : List Pt) (e : Pt × Pt) (he : e ∈ closedEdges pts) :
    e.2 ∈ pts := by
  unfold closedEdges at he
  cases pts with
  | nil => exact absurd he (List.not_mem_nil e)
  | cons a t =>
    obtain ⟨p, q⟩ := e
    have h2 := (List.of_mem_zip he).2
    simp only [List.tail_cons] at h2
    rcases List.mem_append.mp h2 with h3 | h3
    · exact List.mem_cons_of_mem a h3
    · have h4 := List.mem_singleton.mp h3
      show q ∈ a :: t
      rw [h4]
      exact List.mem_cons_self a t

theorem Polygon.borderCells_nil (s : Polygon) (g : GridMeta)
    (hall : ∀ v ∈ s.poly, worldToMap g v.1 v.2 = none) : s.borderCells g = [] := by
  unfold Polygon.borderCells
  refine foldl_const _ _ ?_ []
  intro acc e he
  rw [hall e.1 (closedEdges_fst_mem s.poly e he), hall e.2 (closedEdges_snd_mem s.poly e he)]

theorem Polygon.fillCells_nil (s : Polygon) (g : GridMeta) (hres : 0 < g.resolution)
    (h : outsideGrid g s.getBoundaries) : s.fillCells g = [] := by
  rcases h with h1 | h2 | h3 | h4
  · have hc : clampedRange g.origin_x g.resolution g.width s.getBoundaries.1
        s.getBoundaries.2.2.1 = [] := clampedRange_empty_low _ _ _ _ _ hres h1
    unfold Polygon.fillCells
    simp only [hc, List.filter_nil, List.map_nil, List.append_nil]
    exact foldl_const _ _ (fun a b _ => rfl) []
  · have hc : clampedRange g.origin_x g.resolution g.width s.getBoundaries.1
        s.getBoundaries.2.2.1 = [] := clampedRange_empty_right _ _ _ _ _ hres h2
    unfold Polygon.fillCells
    simp only [hc, List.filter_nil, List.map_nil, List.append_nil]
    exact foldl_const _ _ (fun a b _ => rfl) []
  · have hc : clampedRange g.origin_y g.resolution g.height s.getBoundaries.2.1
        s.getBoundaries.2.2.2 = [] := clampedRange_empty_low _ _ _ _ _ hres h3
    unfold Polygon.fillCells
    rw [hc]
    rfl
  · have hc : clampedRange g.origin_y g.resolution g.height s.getBoundaries.2.1
        s.getBoundaries.2.2.2 = [] := clampedRange_empty_right _ _ _ _ _ hres h4
    unfold Polygon.fillCells
    rw [hc]
    rfl

theorem Polygon.rasterize_outside (s : Polygon) (m : Grid) (ot : OverlayType)
    (hres : 0 < m.meta.resolution) (h : outsideGrid m.meta s.getBoundaries) :
    s.rasterize m ot = m := by
  have hf := Polygon.fillCells_nil s m.meta hres h
  have hb : s.borderCells m.meta = [] := by
    apply Polygon.borderCells_nil
    intro v hv
    have hvb := vertexBounds s v hv
    rcases h with h1 | h2 | h3 | h4
    · exact worldToMap_none_xlow m.meta v.1 v.2 hres (by linarith [hvb.2.2.1])
    · exact worldToMap_none_xhigh m.meta v.1 v.2 hres (by linarith [hvb.1])
    · exact worldToMap_none_ylow m.meta v.1 v.2 hres (by linarith [hvb.2.2.2])
    · exact worldToMap_none_yhigh m.meta v.1 v.2 hres (by linarith [hvb.2.1])
  unfold Polygon.rasterize
  cases hfill : s.params.fill <;> simp [hfill, hf, hb, writeAll]

theorem Circle.rasterize_noop (s : Circle) (m : Grid) (ot : OverlayType)
    (h : centerToMap m.meta s.center = none) : s.rasterize m ot = m := by
  have hf : s.fillCells m.meta = [] := by
    unfold Circle.fillCells
    rw [h]
  have hb : s.borderCells m.meta = [] := by
    unfold Circle.borderCells
    rw [h]
  unfold Circle.rasterize
  cases hfill : s.params.fill <;> simp [hfill, hf, hb, writeAll]

/-! ## Claim theorems -/

/-- C2: centerToMap rounds each axis independently with
round-half-away-from-zero semantics and bounds-checks the rounded cell: it
returns success with exactly that cell when it lies inside the grid and
failure when it falls outside. The rounding really is
round-half-away-from-zero and not truncation: the rounded integer is a
nearest integer (within one half, no integer strictly closer) and on exact
half ties its magnitude is at least that of the input. -/
theorem claim_C2_centerToMap :
    (∀ (g : GridMeta) (c : Pt) (p : ℕ × ℕ),
      centerToMap g c = some p ↔
        (0 ≤ roundAway ((c.1 - g.origin_x) / g.resolution) ∧
          roundAway ((c.1 - g.origin_x) / g.resolution) < (g.width : ℤ) ∧
          0 ≤ roundAway ((c.2 - g.origin_y) / g.resolution) ∧
          roundAway ((c.2 - g.origin_y) / g.resolution) < (g.height : ℤ)) ∧
        p = ((roundAway ((c.1 - g.origin_x) / g.resolution)).toNat,
             (roundAway ((c.2 - g.origin_y) / g.resolution)).toNat)) ∧
    (∀ (g : GridMeta) (c : Pt),
      centerToMap g c = none ↔
        ¬(0 ≤ roundAway ((c.1 - g.origin_x) / g.resolution) ∧
          roundAway ((c.1 - g.origin_x) / g.resolution) < (g.width : ℤ) ∧
          0 ≤ roundAway ((c.2 - g.origin_y) / g.resolution) ∧
          roundAway ((c.2 - g.origin_y) / g.resolution) < (g.height : ℤ))) ∧
    (∀ q : ℚ, |(roundAway q : ℚ) - q| ≤ 1 / 2) ∧
    (∀ (q : ℚ) (z : ℤ), |(roundAway q : ℚ) - q| ≤ |(z : ℚ) - q|) ∧
    (∀ q : ℚ, |(roundAway q : ℚ) - q| = 1 / 2 → |q| ≤ |(roundAway q : ℚ)|) := by
  refine ⟨?_, ?_, roundAway_half, roundAway_nearest, roundAway_tie_away⟩
  · intro g c p
    unfold centerToMap
    split_ifs with h
    · simp only [Option.some.injEq]
      constructor
      · intro he
        exact ⟨h, he.symm⟩
      · intro he
        exact he.2.symm
    · constructor
      · intro he
        simp at he
      · intro he
        exact absurd he.1 h
  · intro g c
    unfold centerToMap
    split_ifs with h
    · constructor
      · intro he
        simp at he
      · intro he
        exact absurd h he
    · simp [h]

/-- Witness for C2: the center (2.4, 2.6) on a 5 by 5 resolution-1 grid
converts to cell (2, 3) — truncation would give (2, 2) — and the tie 1/2
rounds to 1, whose magnitude is at least 1/2. -/
theorem claim_C2_centerToMap_witness :
    centerToMap ⟨5, 5, 1, 0, 0⟩ (24 / 10, 26 / 10) = some (2, 3) ∧
    |((1 : ℚ) / 2)| ≤ |((roundAway (1 / 2) : ℤ) : ℚ)| := by
  have hx : roundAway ((12 : ℚ) / 5) = 2 := by
    unfold roundAway
    rw [if_pos (by norm_num)]
    rw [show ((12 : ℚ) / 5) + 1 / 2 = 29 / 10 by norm_num]
    rw [Int.floor_eq_iff]
    norm_num
  have hy : roundAway ((13 : ℚ) / 5) = 3 := by
    unfold roundAway
    rw [if_pos (by norm_num)]
    rw [show ((13 : ℚ) / 5) + 1 / 2 = 31 / 10 by norm_num]
    rw [Int.floor_eq_iff]
    norm_num
  constructor
  · refine (claim_C2_centerToMap.1 ⟨5, 5, 1, 0, 0⟩ (24 / 10, 26 / 10) (2, 3)).mpr ?_
    norm_num [hx, hy]
    decide
  · refine claim_C2_centerToMap.2.2.2.2 (1 / 2) ?_
    have hr : roundAway ((1 : ℚ) / 2) = 1 := by
      unfold roundAway
      rw [if_pos (by norm_num)]
      norm_num
    rw [hr]
    norm_num

/-- C3: rasterizing the same shape twice in succession onto the same grid
with the same value and the same overlay policy (replace, combine-max or
combine-min) produces exactly the same final grid as rasterizing it once —
for every shape, every grid and every policy the second rasterization
changes no cell. -/
theorem claim_C3_rasterize_idempotent (s : VShape) (m : Grid) (ot : OverlayType) :
    s.rasterize (s.rasterize m ot) ot = s.rasterize m ot := by
  cases s with
  | pol p => exact polygon_rasterize_twice p m ot
  | cir c => exact circle_rasterize_twice c m ot

/-- C6: transforming any shape to the frame it is already in succeeds,
leaves the shape completely unchanged, and does so for every possible
provider — the result is the same whatever the provider answers, so the
provider is never consulted. -/
theorem claim_C6_toFrame_same_frame (s : VShape) (prov : TFProv) (tol : ℚ) :
    s.toFrame s.frameId prov tol = (true, s) := by
  cases s with
  | pol p => simp [VShape.toFrame, VShape.frameId, Polygon.toFrame, Polygon.getFrameID]
  | cir c => simp [VShape.toFrame, VShape.frameId, Circle.toFrame, Circle.getFrameID]

/-- C1: construction and parameter update fail with InconsistentShape
exactly when the polygon has fewer than three vertices or two consecutive
vertices coincide, or the circle has a non-positive radius; a successfully
constructed shape always carries validated geometry, so no inconsistent
shape ever exists in a constructed state. -/
theorem claim_C1_validation :
    (∀ pp : PolygonVO, exceptOk (Polygon.make pp) = true ↔ PolyValid pp.points) ∧
    (∀ (s : Polygon) (pp : PolygonVO),
      (Polygon.setParams s pp).1 = none ↔ PolyValid pp.points) ∧
    (∀ cp : CircleVO, exceptOk (Circle.make cp) = true ↔ 0 < cp.radius) ∧
    (∀ (s : Circle) (cp : CircleVO),
      (Circle.setParams s cp).1 = none ↔ 0 < cp.radius) ∧
    (∀ (pp : PolygonVO) (s : Polygon), Polygon.make pp = .ok s → PolyValid s.poly) ∧
    (∀ (cp : CircleVO) (s : Circle), Circle.make cp = .ok s → 0 < s.params.radius) := by
  refine ⟨?_, ?_, ?_, ?_, ?_, ?_⟩
  · intro pp
    rw [← polyConsistent_iff]
    unfold Polygon.make
    by_cases h : polyConsistent pp.points <;> simp [h, exceptOk]
  · intro s pp
    rw [← polyConsistent_iff]
    unfold Polygon.setParams
    by_cases h : polyConsistent pp.points <;> simp [h]
  · intro cp
    unfold Circle.make circleConsistent
    by_cases h : (0:ℚ) < cp.radius <;> simp [h, exceptOk]
  · intro s cp
    unfold Circle.setParams circleConsistent
    by_cases h : (0:ℚ) < cp.radius <;> simp [h]
  · intro pp s h
    unfold Polygon.make at h
    by_cases hc : polyConsistent pp.points
    · simp only [hc, if_true, Except.ok.injEq] at h
      rw [← h]
      exact (polyConsistent_iff _).mp hc
    · simp [hc] at h
  · intro cp s h
    unfold Circle.make at h
    by_cases hc : circleConsistent cp.radius
    · simp only [hc, if_true, Except.ok.injEq] at h
      rw [← h]
      simpa [circleConsistent] using hc
    · simp [hc] at h

/-- Witness for C1: a concrete triangle and a concrete unit circle are
accepted by the constructors. -/
theorem claim_C1_validation_witness :
    exceptOk (Polygon.make triParams) = true ∧ exceptOk (Circle.make circParams) = true :=
  ⟨(claim_C1_validation.1 triParams).mpr
      ⟨by norm_num [triParams, triPts],
       by norm_num [triParams, triPts, List.chain'_cons, Prod.ext_iff]⟩,
   (claim_C1_validation.2.2.1 circParams).mpr (by norm_num [circParams])⟩

/-- C4: setParams is atomic — when validation of the new parameters fails
the shape is left exactly as it was (parameters, derived grid-frame
geometry, frame id and uuid all unchanged), and when validation succeeds
the update is fully applied. -/
theorem claim_C4_setParams_atomic :
    (∀ (s : Polygon) (pp : PolygonVO) (e : ShapeError),
      (Polygon.setParams s pp).1 = some e → (Polygon.setParams s pp).2 = s) ∧
    (∀ (s : Polygon) (pp : PolygonVO),
      (Polygon.setParams s pp).1 = none →
        (Polygon.setParams s pp).2 = ⟨pp, pp.points⟩) ∧
    (∀ (s : Circle) (cp : CircleVO) (e : ShapeError),
      (Circle.setParams s cp).1 = some e → (Circle.setParams s cp).2 = s) ∧
    (∀ (s : Circle) (cp : CircleVO),
      (Circle.setParams s cp).1 = none →
        (Circle.setParams s cp).2 = ⟨cp, cp.center⟩) := by
  refine ⟨?_, ?_, ?_, ?_⟩
  · intro s pp e h
    unfold Polygon.setParams at h ⊢
    by_cases hc : polyConsistent pp.points <;> simp_all
  · intro s pp h
    unfold Polygon.setParams at h ⊢
    by_cases hc : polyConsistent pp.points <;> simp_all
  · intro s cp e h
    unfold Circle.setParams at h ⊢
    by_cases hc : circleConsistent cp.radius <;> simp_all
  · intro s cp h
    unfold Circle.setParams at h ⊢
    by_cases hc : circleConsistent cp.radius <;> simp_all

/-- Witness for C4: updating a concrete triangle with a two-vertex vertex
list and a concrete circle with a negative radius both fail and leave the
shapes unchanged. -/
theorem claim_C4_setParams_atomic_witness :
    (Polygon.setParams triShape badPolyParams).2 = triShape ∧
    (Circle.setParams circShape badCircleParams).2 = circShape :=
  ⟨claim_C4_setParams_atomic.1 triShape badPolyParams .inconsistentShape (by decide),
   claim_C4_setParams_atomic.2.2.1 circShape badCircleParams .inconsistentShape (by decide)⟩

/-- C5: when the transform provider cannot supply a transform to a target
frame different from the current one, toFrame returns failure and the
shape — vertices or center, and stored frame id — is exactly as before, so
the shape remains in its previous frame. -/
theorem claim_C5_toFrame_unavailable (s : VShape) (f : String) (prov : TFProv) (tol : ℚ)
    (hne : f ≠ s.frameId) (hp : prov f s.frameId tol = none) :
    s.toFrame f prov tol = (false, s) := by
  cases s with
  | pol p =>
    simp only [VShape.frameId, Polygon.getFrameID] at hne hp
    simp [VShape.toFrame, Polygon.toFrame, hne, hp]
  | cir c =>
    simp only [VShape.frameId, Circle.getFrameID] at hne hp
    simp [VShape.toFrame, Circle.toFrame, hne, hp]

/-- Witness for C5: a concrete triangle in frame map, asked to move to
frame odom through a provider that never supplies a transform, reports
failure with its state intact. -/
theorem claim_C5_toFrame_unavailable_witness :
    VShape.toFrame (.pol triShape) "odom" provNone 0 = (false, .pol triShape) :=
  claim_C5_toFrame_unavailable (.pol triShape) "odom" provNone 0 (by decide) rfl

/-- C7: every valid circle contains its own center, and contains every
point whose squared distance from the center equals the squared radius —
containment is the squared-distance comparison, boundary inclusive. -/
theorem claim_C7_circle_contains (s : Circle) (hr : 0 < s.params.radius) :
    s.isPointInside s.center.1 s.center.2 = true ∧
    ∀ px py : ℚ,
      (px - s.center.1) ^ 2 + (py - s.center.2) ^ 2 = s.params.radius ^ 2 →
        s.isPointInside px py = true := by
  constructor
  · unfold Circle.isPointInside pointInCircle
    rw [decide_eq_true_eq]
    nlinarith [sq_nonneg s.params.radius]
  · intro px py h
    unfold Circle.isPointInside pointInCircle
    rw [decide_eq_true_eq, h]

/-- Witness for C7: the concrete unit circle contains its center and the
boundary point (1, 0). -/
theorem claim_C7_circle_contains_witness :
    circShape.isPointInside 0 0 = true ∧ circShape.isPointInside 1 0 = true :=
  ⟨(claim_C7_circle_contains circShape (by norm_num [circShape, circParams])).1,
   (claim_C7_circle_contains circShape (by norm_num [circShape, circParams])).2 1 0
     (by norm_num [circShape, circParams])⟩

/-- C8: on the 5 by 5 resolution-1 grid with origin (0,0), the filled
square with vertices (1,1), (1,3), (3,3), (3,1) and value 100 paints
exactly the four cells (1,1), (1,2), (2,1), (2,2) — flat offsets 6, 7, 11,
12 — which are the cells whose center points lie strictly inside the
square; border-only mode paints exactly the ring of cells on the four
edges, flat offsets 6, 7, 8, 11, 13, 16, 17, 18. -/
theorem claim_C8_square_scenario :
    Polygon.rasterize sqFill gridC8 .replace =
      ⟨gridC8.meta,
        [0, 0, 0, 0, 0, 0, 100, 100, 0, 0, 0, 100, 100, 0, 0, 0, 0, 0, 0, 0, 0, 0, 0, 0, 0]⟩ ∧
    Polygon.rasterize sqBorder gridC8 .replace =
      ⟨gridC8.meta,
        [0, 0, 0, 0, 0, 0, 100, 100, 100, 0, 0, 100, 0, 100, 0, 0, 100, 100, 100, 0,
         0, 0, 0, 0, 0]⟩ := by
  constructor
  · unfold Polygon.rasterize
    norm_num [sqFill, sqBorder, sqParams, gridC8, Polygon.fillCells, Polygon.getBoundaries,
      listMinQ, listMaxQ, clampedRange, cellCenter, pointInPolygon, closedEdges, edgeCrossesRay]
    norm_num [List.range']
    decide
  · unfold Polygon.rasterize
    norm_num [sqFill, sqBorder, sqParams, gridC8, Polygon.borderCells, closedEdges,
      worldToMap, lineCells, bresLoop]
    decide

/-- C9: when a circle center converts to a cell outside the grid, or a
polygon bounding box lies wholly outside the grid, rasterization performs
no writes at all — the grid is returned exactly as it was — and this is
ordinary successful completion, not an error. -/
theorem claim_C9_outside_noop :
    (∀ (s : Circle) (m : Grid) (ot : OverlayType),
      centerToMap m.meta s.center = none → s.rasterize m ot = m) ∧
    (∀ (s : Polygon) (m : Grid) (ot : OverlayType),
      0 < m.meta.resolution → outsideGrid m.meta s.getBoundaries →
        s.rasterize m ot = m) :=
  ⟨Circle.rasterize_noop, Polygon.rasterize_outside⟩

/-- Witness for C9: a circle centered at (10, 10) and a square spanning
(10, 10) to (12, 12) leave the concrete 5 by 5 grid untouched. -/
theorem claim_C9_outside_noop_witness :
    Circle.rasterize farCircle gridC8 .replace = gridC8 ∧
    Polygon.rasterize farPoly gridC8 .replace = gridC8 := by
  constructor
  · refine claim_C9_outside_noop.1 farCircle gridC8 .replace ?_
    have h10 : roundAway (10 : ℚ) = 10 := by
      unfold roundAway
      rw [if_pos (by norm_num)]
      rw [show (10 : ℚ) + 1 / 2 = 21 / 2 by norm_num]
      rw [Int.floor_eq_iff]
      norm_num
    unfold centerToMap
    rw [if_neg]
    norm_num [farCircle, gridC8, h10]
  · refine claim_C9_outside_noop.2 farPoly gridC8 .replace (by norm_num [gridC8]) ?_
    unfold outsideGrid
    norm_num [farPoly, gridC8, Polygon.getBoundaries, listMinQ, listMaxQ, min_def, max_def]

/-- C10: every read-only query of the capability set leaves the shape state
completely unchanged, and over any sequence of such calls every answer is
the pure function of the initial state — so repeated calls with the same
arguments return the same results. -/
theorem claim_C10_queries_pure (s : VShape) (qs : List QueryOp) :
    runQueries s qs = (qs.map (fun q => s.query q), s) := by
  induction qs with
  | nil => rfl
  | cons q qs ih => simp [runQueries, VShape.queryCall, ih]

end Nav2VO
